import Mathlib

/-!
Shallow embedding of the checkout-ledger and availability engine of the
HUGE Handyman inventory application (`app.py`), together with proofs about
its behaviour.  The database tables `tools` and `transactions` are modelled
as Lean lists, SQL statements become list operations, and the Streamlit
handlers that gate the engine calls are modelled as the boolean conditions
they evaluate.
-/

namespace HugeInventory

/-- The `action` column of the `transactions` table:
`check (action in ('check_out','check_in'))` (app.py, `init_db`). -/
inductive Action where
  | check_out
  | check_in
deriving DecidableEq, Repr

/-- One row of the `transactions` table.  The serial `id` and the timestamp
`ts` are represented by the row's position in the list: rows are appended in
insertion order and `order by ts, id` coincides with list order. -/
structure Tx where
  tool_id : Nat
  user_name : String
  action : Action
deriving DecidableEq, Repr

/-- One row of the `tools` table (image columns omitted: they never affect
availability, holders or lifecycle decisions). -/
structure ToolRow where
  id : Nat
  name : String
  category : String
  quantity : Int
  current_out : Int
deriving DecidableEq, Repr

/-- The database state: the `tools` and `transactions` tables plus the
serial counter that assigns fresh tool ids. -/
structure DB where
  tools : List ToolRow
  transactions : List Tx
  next_tool_id : Nat
deriving DecidableEq, Repr

/-- `init_db` (app.py): both tables start empty; the serial starts at 1. -/
def init_db : DB := { tools := [], transactions := [], next_tool_id := 1 }

/-- Python's `str.strip()`: removes leading and trailing whitespace.
(Defined structurally so that it evaluates inside the kernel.) -/
def pyStrip (s : String) : String :=
  ⟨((s.data.dropWhile Char.isWhitespace).reverse.dropWhile Char.isWhitespace).reverse⟩

/-- `select * from transactions where tool_id = :tid` in insertion order. -/
def eventsFor (db : DB) (tid : Nat) : List Tx :=
  db.transactions.filter (fun tx => tx.tool_id == tid)

/-- `select ... from tools where id = :tid` (at most one row). -/
def findTool (db : DB) (tid : Nat) : Option ToolRow :=
  db.tools.find? (fun t => t.id == tid)

/-- `record_checkout` (app.py): reads `quantity` and `current_out` for the
tool; returns `False` when the row is missing or `quantity - current_out <= 0`;
otherwise increments `current_out`, inserts a `check_out` transaction and
returns `True`. -/
def record_checkout (db : DB) (tid : Nat) (u : String) : Bool × DB :=
  match findTool db tid with
  | none => (false, db)
  | some t =>
    if t.quantity - t.current_out ≤ 0 then (false, db)
    else
      (true,
       { db with
         tools := db.tools.map (fun r =>
           if r.id == tid then { r with current_out := r.current_out + 1 } else r),
         transactions := db.transactions ++ [⟨tid, u, Action.check_out⟩] })

/-- `record_checkin` (app.py): unconditionally sets
`current_out = greatest(current_out - 1, 0)`, inserts a `check_in`
transaction and returns `True`. -/
def record_checkin (db : DB) (tid : Nat) (u : String) : Bool × DB :=
  (true,
   { db with
     tools := db.tools.map (fun r =>
       if r.id == tid then { r with current_out := max (r.current_out - 1) 0 } else r),
     transactions := db.transactions ++ [⟨tid, u, Action.check_in⟩] })

/-- `last_holder` (app.py): the latest transaction of the tool
(`order by ts desc, id desc limit 1`); returns its actor when that
transaction is a `check_out`, else `None`. -/
def last_holder (db : DB) (tid : Nat) : Option String :=
  match (eventsFor db tid).getLast? with
  | some tx => if tx.action == Action.check_out then some tx.user_name else none
  | none => none

/-- The check-in gate evaluated by the UI (app.py, tool-row rendering):
`can_checkin = (current_out > 0) and (is_admin or (holder == user))`,
where `holder = last_holder(tool_id)`. -/
def can_checkin (current_out : Int) (is_admin : Bool) (holder : Option String)
    (user : String) : Bool :=
  decide (0 < current_out) && (is_admin || holder == some user)

/-- The `my_df` window query (app.py, "My Checked-Out Tools"): a tool is
listed for user `u` exactly when its latest transaction (`rn = 1` under
`order by ts desc, id desc` per `tool_id`) is a `check_out` by `u`.
The SQL's `order by category, name` only permutes the rows and is omitted. -/
def my_tools (db : DB) (u : String) : List ToolRow :=
  db.tools.filter (fun t =>
    match (eventsFor db t.id).getLast? with
    | some tx => tx.action == Action.check_out && tx.user_name == u
    | none => false)

/-- The `available_qty` column computed by `list_tools_by_category`:
`(quantity - current_out).clip(lower=0)`. -/
def available_qty (quantity current_out : Int) : Int :=
  max (quantity - current_out) 0

/-- `list_tools_by_category` (app.py): the tools of the category together
with the clamped `available_qty` column.  The SQL's `order by name` only
permutes the rows and is omitted. -/
def list_tools_by_category (db : DB) (cat : String) : List (ToolRow × Int) :=
  (db.tools.filter (fun t => t.category == cat)).map
    (fun t => (t, available_qty t.quantity t.current_out))

/-- `upsert_tool` (app.py): `INSERT ... ON CONFLICT(name) DO UPDATE`.
The `tools.name` column carries a global `unique` constraint, so the
conflict target is the name alone: an existing row of the same (stripped)
name — in any category — gets its `category` and `quantity` overwritten;
otherwise a fresh row is inserted with the serial id and `current_out = 0`
(the column default).  Image columns are omitted. -/
def upsert_tool (db : DB) (name category : String) (quantity : Int) : DB :=
  if db.tools.any (fun t => t.name == pyStrip name) then
    { db with tools := db.tools.map (fun t =>
        if t.name == pyStrip name then
          { t with category := category, quantity := quantity }
        else t) }
  else
    { db with
      tools := db.tools ++
        [{ id := db.next_tool_id, name := pyStrip name, category := category,
           quantity := quantity, current_out := 0 }],
      next_tool_id := db.next_tool_id + 1 }

/-- `update_tool_fields` (app.py): overwrites `name`, `category` and
`quantity` of the row with the given id; `current_out` is untouched. -/
def update_tool_fields (db : DB) (tid : Nat) (name category : String)
    (quantity : Int) : DB :=
  { db with tools := db.tools.map (fun t =>
      if t.id == tid then { t with name := pyStrip name, category := category,
                                   quantity := quantity } else t) }

/-- `delete_tool` (app.py): raises whenever the row exists and
`current_out > 0`, before `delete_history` is even consulted; otherwise
deletes the transactions of the tool when `delete_history` is set, and
deletes the tool row. -/
def delete_tool (db : DB) (tid : Nat) (delete_history : Bool) : Except String DB :=
  match findTool db tid with
  | some t =>
    if 0 < t.current_out then
      Except.error "Cannot delete while items are checked out."
    else
      Except.ok
        { db with
          transactions :=
            if delete_history then
              db.transactions.filter (fun tx => !(tx.tool_id == tid))
            else db.transactions,
          tools := db.tools.filter (fun r => !(r.id == tid)) }
  | none =>
      Except.ok
        { db with
          transactions :=
            if delete_history then
              db.transactions.filter (fun tx => !(tx.tool_id == tid))
            else db.transactions,
          tools := db.tools.filter (fun r => !(r.id == tid)) }

/-! ### Spec-side definitions (for refinement comparison only)

These follow the specification's words, not the code, and exist to be
compared with the code-derived definitions above. -/

/-- Spec-side: an actor's net outstanding count for a ledger, per the spec:
"(#CheckOut events by that actor) − (#CheckIn events by that actor)". -/
def netCount (log : List Tx) (a : String) : Int :=
  ((log.filter (fun tx => tx.user_name == a && tx.action == Action.check_out)).length : Int) -
  ((log.filter (fun tx => tx.user_name == a && tx.action == Action.check_in)).length : Int)

/-- Spec-side: the total number of outstanding units according to the spec's
`holders()` multiset — each actor of the ledger contributes `max(net, 0)`. -/
def outstandingSpec (log : List Tx) : Int :=
  ((log.map (fun tx => tx.user_name)).dedup).foldl
    (fun acc a => acc + max (netCount log a) 0) 0

/-! ### The global counter the code actually maintains -/

/-- One step of replaying the ledger with the single global counter the code
maintains on `tools.current_out`: a `check_out` increments it, a `check_in`
decrements it clamped at zero (`greatest(current_out - 1, 0)`). -/
def replayStep (acc : Int) (tx : Tx) : Int :=
  match tx.action with
  | Action.check_out => acc + 1
  | Action.check_in => max (acc - 1) 0

/-- Replaying a tool's full ledger with the global counter, from 0. -/
def globalReplay (log : List Tx) : Int := log.foldl replayStep 0

/-! ### Operation sequences -/

/-- The operations the application performs against a database. -/
inductive Op where
  | upsert (name category : String) (quantity : Int)
  | checkout (tid : Nat) (user : String)
  | checkin (tid : Nat) (user : String)
deriving Repr

/-- Apply one operation to the database (the boolean results are dropped). -/
def applyOp (db : DB) (op : Op) : DB :=
  match op with
  | Op.upsert n c q => upsert_tool db n c q
  | Op.checkout tid u => (record_checkout db tid u).2
  | Op.checkin tid u => (record_checkin db tid u).2

/-- Run a sequence of operations. -/
def runOps (db : DB) (ops : List Op) : DB := ops.foldl applyOp db

/-- The reconciliation invariant maintained by the code: every tool's cached
`current_out` equals the global replay of that tool's ledger; tool ids stay
below the serial counter; and any transaction whose `tool_id` is at or above
the serial counter (recorded against a tool that does not exist yet) is a
`check_in`. -/
def Inv (db : DB) : Prop :=
  (∀ t ∈ db.tools, t.current_out = globalReplay (eventsFor db t.id)) ∧
  (∀ t ∈ db.tools, t.id < db.next_tool_id) ∧
  (∀ tx ∈ db.transactions, tx.tool_id < db.next_tool_id ∨ tx.action = Action.check_in)

/-! ### Concrete states used in witnesses and counterexamples -/

/-- A tool with its single unit checked out by Alice. -/
def exhaustedDB : DB :=
  { tools := [⟨1, "Drill", "Power Tools", 1, 1⟩],
    transactions := [⟨1, "Alice", Action.check_out⟩],
    next_tool_id := 2 }

/-- A tool whose unit was checked out and back in by Alice. -/
def idleDB : DB :=
  { tools := [⟨1, "Drill", "Power Tools", 1, 0⟩],
    transactions := [⟨1, "Alice", Action.check_out⟩, ⟨1, "Alice", Action.check_in⟩],
    next_tool_id := 2 }

/-- A tool whose quantity an administrator reduced to 0 while a unit is
still outstanding. -/
def overdrawnDB : DB :=
  { tools := [⟨1, "Drill", "Power Tools", 0, 1⟩],
    transactions := [⟨1, "Alice", Action.check_out⟩],
    next_tool_id := 2 }

/-- A two-unit tool checked out first by Alice, then by Bob: both hold one
unit, and Bob made the most recent transaction. -/
def twoHoldersDB : DB :=
  { tools := [⟨1, "Sander", "Power Tools", 2, 2⟩],
    transactions := [⟨1, "Alice", Action.check_out⟩, ⟨1, "Bob", Action.check_out⟩],
    next_tool_id := 2 }

/-- The tool row of `twoHoldersDB`. -/
def sanderRow : ToolRow := ⟨1, "Sander", "Power Tools", 2, 2⟩

/-- Create a one-unit tool, check it out as Alice, then check it in as Bob
(a non-holder check-in, as an admin acting under another identity can
produce). -/
def driftOps : List Op :=
  [Op.upsert "Sander" "Power Tools" 1, Op.checkout 1 "Alice", Op.checkin 1 "Bob"]

/-- The database reached by `driftOps` from a fresh database. -/
def driftDB : DB := runOps init_db driftOps

/-- Upsert the name "Hammer" twice, under two different categories. -/
def hammerTwice : DB :=
  upsert_tool (upsert_tool init_db "Hammer" "Power Tools" 1) "Hammer" "Hand Tools" 2

/-- An available tool and an empty ledger. -/
def guestDB : DB :=
  { tools := [⟨1, "Drill", "Power Tools", 1, 0⟩],
    transactions := [],
    next_tool_id := 2 }

/-- Create a tool, apply two checkin operations with no prior checkout,
then a checkout. -/
def zigzagOps : List Op :=
  [Op.upsert "Saw" "Hand Tools" 1, Op.checkin 1 "Bob", Op.checkin 1 "Bob",
   Op.checkout 1 "Alice"]

/-! ### Helper lemmas -/

theorem replayStep_out (acc : Int) (tid : Nat) (u : String) :
    replayStep acc ⟨tid, u, Action.check_out⟩ = acc + 1 := rfl

theorem replayStep_in (acc : Int) (tid : Nat) (u : String) :
    replayStep acc ⟨tid, u, Action.check_in⟩ = max (acc - 1) 0 := rfl

theorem globalReplay_append (log : List Tx) (tx : Tx) :
    globalReplay (log ++ [tx]) = replayStep (globalReplay log) tx := by
  simp [globalReplay, List.foldl_append]

theorem replay_foldl_nonneg (log : List Tx) (acc : Int) (h : 0 ≤ acc) :
    0 ≤ log.foldl replayStep acc := by
  induction log generalizing acc with
  | nil => simpa using h
  | cons tx rest ih =>
    rw [List.foldl_cons]
    apply ih
    obtain ⟨tid, u, a⟩ := tx
    cases a with
    | check_out => rw [replayStep_out]; omega
    | check_in => rw [replayStep_in]; exact le_max_right _ _

theorem globalReplay_nonneg (log : List Tx) : 0 ≤ globalReplay log :=
  replay_foldl_nonneg log 0 le_rfl

theorem globalReplay_all_checkin (log : List Tx)
    (h : ∀ tx ∈ log, tx.action = Action.check_in) :
    globalReplay log = 0 := by
  induction log with
  | nil => rfl
  | cons tx rest ih =>
    have hfirst : replayStep 0 tx = 0 := by
      obtain ⟨tid, u, a⟩ := tx
      have := h ⟨tid, u, a⟩ (List.mem_cons_self _ _)
      simp only at this
      rw [this, replayStep_in]
      decide
    show List.foldl replayStep 0 (tx :: rest) = 0
    rw [List.foldl_cons, hfirst]
    exact ih (fun tx' hm => h tx' (List.mem_cons_of_mem _ hm))

theorem find?_filter_not {α : Type} (p : α → Bool) (l : List α) :
    (l.filter (fun a => !(p a))).find? p = none := by
  induction l with
  | nil => rfl
  | cons a l ih =>
    by_cases hp : p a = true
    · simp [List.filter_cons, hp, ih]
    · simp only [Bool.not_eq_true] at hp
      simp [List.filter_cons, hp, List.find?_cons, ih]

theorem filter_not_filter {α : Type} (p : α → Bool) (l : List α) :
    (l.filter (fun a => !(p a))).filter p = [] := by
  rw [List.filter_filter]
  simp

theorem inv_init : Inv init_db := by
  refine ⟨?_, ?_, ?_⟩ <;> intro x hx <;> simp [init_db] at hx

theorem inv_upsert (db : DB) (n c : String) (q : Int) (h : Inv db) :
    Inv (upsert_tool db n c q) := by
  obtain ⟨h1, h2, h3⟩ := h
  unfold upsert_tool
  by_cases hc : (db.tools.any fun t => t.name == pyStrip n) = true
  · rw [if_pos hc]
    refine ⟨?_, ?_, ?_⟩
    · intro t' ht'
      simp only [List.mem_map] at ht'
      obtain ⟨r, hr, rfl⟩ := ht'
      by_cases hn : (r.name == pyStrip n) = true
      · rw [if_pos hn]
        exact h1 r hr
      · rw [if_neg hn]
        exact h1 r hr
    · intro t' ht'
      simp only [List.mem_map] at ht'
      obtain ⟨r, hr, rfl⟩ := ht'
      by_cases hn : (r.name == pyStrip n) = true
      · rw [if_pos hn]
        exact h2 r hr
      · rw [if_neg hn]
        exact h2 r hr
    · exact h3
  · rw [if_neg hc]
    refine ⟨?_, ?_, ?_⟩
    · intro t' ht'
      rcases List.mem_append.1 ht' with hold | hnew
      · exact h1 t' hold
      · rw [List.mem_singleton] at hnew
        subst hnew
        show (0 : Int) = globalReplay (eventsFor db db.next_tool_id)
        refine (globalReplay_all_checkin _ ?_).symm
        intro tx hm
        simp only [eventsFor, List.mem_filter] at hm
        obtain ⟨hmem, hidx⟩ := hm
        rcases h3 tx hmem with hlt | hin
        · exfalso
          simp only [beq_iff_eq] at hidx
          omega
        · exact hin
    · intro t' ht'
      rcases List.mem_append.1 ht' with hold | hnew
      · exact Nat.lt_succ_of_lt (h2 t' hold)
      · rw [List.mem_singleton] at hnew
        subst hnew
        exact Nat.lt_succ_self _
    · intro tx hm
      rcases h3 tx hm with hlt | hin
      · exact Or.inl (Nat.lt_succ_of_lt hlt)
      · exact Or.inr hin

theorem inv_checkout (db : DB) (tid : Nat) (u : String) (h : Inv db) :
    Inv (record_checkout db tid u).2 := by
  obtain ⟨h1, h2, h3⟩ := h
  cases hf : findTool db tid with
  | none =>
    simp only [record_checkout, hf]
    exact ⟨h1, h2, h3⟩
  | some t =>
    simp only [record_checkout, hf]
    by_cases hav : t.quantity - t.current_out ≤ 0
    · rw [if_pos hav]
      exact ⟨h1, h2, h3⟩
    · rw [if_neg hav]
      have htid : t.id = tid := by
        have := List.find?_some hf
        simpa using this
      have htmem : t ∈ db.tools := List.mem_of_find?_eq_some hf
      refine ⟨?_, ?_, ?_⟩
      · intro t' ht'
        simp only [List.mem_map] at ht'
        obtain ⟨r, hr, rfl⟩ := ht'
        by_cases hrid : (r.id == tid) = true
        · rw [if_pos hrid]
          simp only [beq_iff_eq] at hrid
          have he : eventsFor
              { db with
                tools := db.tools.map (fun r =>
                  if r.id == tid then { r with current_out := r.current_out + 1 } else r),
                transactions := db.transactions ++ [⟨tid, u, Action.check_out⟩] } r.id
              = eventsFor db r.id ++ [⟨tid, u, Action.check_out⟩] := by
            simp [eventsFor, List.filter_append, hrid]
          rw [he, globalReplay_append, replayStep_out, h1 r hr]
        · rw [if_neg hrid]
          have hne : (tid == r.id) = false := by
            rw [beq_eq_false_iff_ne]
            intro hx
            exact hrid (by simp [hx])
          have he : eventsFor
              { db with
                tools := db.tools.map (fun r =>
                  if r.id == tid then { r with current_out := r.current_out + 1 } else r),
                transactions := db.transactions ++ [⟨tid, u, Action.check_out⟩] } r.id
              = eventsFor db r.id := by
            simp [eventsFor, List.filter_append, hne]
          rw [he]
          exact h1 r hr
      · intro t' ht'
        simp only [List.mem_map] at ht'
        obtain ⟨r, hr, rfl⟩ := ht'
        by_cases hrid : (r.id == tid) = true
        · rw [if_pos hrid]
          exact h2 r hr
        · rw [if_neg hrid]
          exact h2 r hr
      · intro tx hm
        rcases List.mem_append.1 hm with hold | hnew
        · exact h3 tx hold
        · rw [List.mem_singleton] at hnew
          subst hnew
          exact Or.inl (htid ▸ h2 t htmem)

theorem inv_checkin (db : DB) (tid : Nat) (u : String) (h : Inv db) :
    Inv (record_checkin db tid u).2 := by
  obtain ⟨h1, h2, h3⟩ := h
  refine ⟨?_, ?_, ?_⟩
  · intro t' ht'
    simp only [record_checkin, List.mem_map] at ht'
    obtain ⟨r, hr, rfl⟩ := ht'
    by_cases hrid : (r.id == tid) = true
    · rw [if_pos hrid]
      simp only [beq_iff_eq] at hrid
      have he : eventsFor (record_checkin db tid u).2 r.id
          = eventsFor db r.id ++ [⟨tid, u, Action.check_in⟩] := by
        simp [record_checkin, eventsFor, List.filter_append, hrid]
      rw [he, globalReplay_append, replayStep_in, h1 r hr]
    · rw [if_neg hrid]
      have hne : (tid == r.id) = false := by
        rw [beq_eq_false_iff_ne]
        intro hx
        exact hrid (by simp [hx])
      have he : eventsFor (record_checkin db tid u).2 r.id = eventsFor db r.id := by
        simp [record_checkin, eventsFor, List.filter_append, hne]
      rw [he]
      exact h1 r hr
  · intro t' ht'
    simp only [record_checkin, List.mem_map] at ht'
    obtain ⟨r, hr, rfl⟩ := ht'
    by_cases hrid : (r.id == tid) = true
    · rw [if_pos hrid]
      exact h2 r hr
    · rw [if_neg hrid]
      exact h2 r hr
  · intro tx hm
    simp only [record_checkin] at hm
    rcases List.mem_append.1 hm with hold | hnew
    · exact h3 tx hold
    · rw [List.mem_singleton] at hnew
      subst hnew
      exact Or.inr rfl

theorem inv_applyOp (db : DB) (op : Op) (h : Inv db) : Inv (applyOp db op) := by
  cases op with
  | upsert n c q => exact inv_upsert db n c q h
  | checkout tid u => exact inv_checkout db tid u h
  | checkin tid u => exact inv_checkin db tid u h

theorem inv_runOps (ops : List Op) (db : DB) (h : Inv db) : Inv (runOps db ops) := by
  induction ops generalizing db with
  | nil => exact h
  | cons op rest ih => exact ih (applyOp db op) (inv_applyOp db op h)

/-! ### Claim theorems -/

/-- Claim C1: whenever a tool's available count (`quantity - current_out`)
is 0 or less, `record_checkout` returns the failure result `false` and
leaves the database — the transaction ledger and the tool record —
completely unchanged: no event is appended, no counter moves. -/
theorem checkout_rejected_when_no_units (db : DB) (tid : Nat) (u : String)
    (t : ToolRow) (hf : findTool db tid = some t)
    (hav : t.quantity - t.current_out ≤ 0) :
    record_checkout db tid u = (false, db) := by
  simp only [record_checkout, hf]
  rw [if_pos hav]

/-- Witness for C1: with one unit out of one checked out by Alice, a
checkout attempt by Bob fails and the database is unchanged (the ledger
still has exactly Alice's event). -/
theorem checkout_rejected_when_no_units_witness :
    record_checkout exhaustedDB 1 "Bob" = (false, exhaustedDB) :=
  checkout_rejected_when_no_units exhaustedDB 1 "Bob"
    ⟨1, "Drill", "Power Tools", 1, 1⟩ (by decide) (by decide)

/-- Claim C2 counterexample: the claim says a check-in by actor A is
permitted iff A is admin or A is in the holder multiset H.  In
`twoHoldersDB` Alice has net count 1 (she is a holder), yet the UI gate
`can_checkin` rejects her non-admin check-in, because the code compares
against `last_holder` — the single actor of the most recent event (Bob) —
not against the holder multiset. -/
theorem can_checkin_claim_counterexample :
    findTool twoHoldersDB 1 = some sanderRow ∧
    netCount (eventsFor twoHoldersDB 1) "Alice" = 1 ∧
    can_checkin sanderRow.current_out false (last_holder twoHoldersDB 1) "Alice" = false := by
  decide

/-- Claim C2 (amended): the UI permits a check-in iff the cached
`current_out` is positive and the actor is admin or equals the tool's
`last_holder` (the actor of the most recent event when that event is a
check-out).  Membership in the net-count holder multiset plays no role,
and an admin is also blocked whenever `current_out = 0`. -/
theorem can_checkin_iff (co : Int) (admin : Bool) (h : Option String) (u : String) :
    can_checkin co admin h u = true ↔ (0 < co ∧ (admin = true ∨ h = some u)) := by
  simp [can_checkin]

/-- Claim C3 counterexample: the claim says the current holders are exactly
the actors with positive net outstanding count.  In `twoHoldersDB` Alice's
net count is 1, yet the code reports Bob (the actor of the latest event) as
the holder and Alice's "my tools" listing is empty. -/
theorem holders_claim_counterexample :
    netCount (eventsFor twoHoldersDB 1) "Alice" = 1 ∧
    last_holder twoHoldersDB 1 = some "Bob" ∧
    my_tools twoHoldersDB "Alice" = [] := by
  decide

/-- Claim C3 (amended): the code derives holdership solely from the most
recent event.  For every tool on file, the tool appears in actor `u`'s
"my tools" listing iff `last_holder` names `u`, i.e. iff the tool's latest
transaction is a check-out by `u`; net counts are never computed. -/
theorem my_tools_iff_last_holder (db : DB) (u : String) (t : ToolRow)
    (ht : t ∈ db.tools) :
    t ∈ my_tools db u ↔ last_holder db t.id = some u := by
  have hmem : (t ∈ my_tools db u) ↔
      (match (eventsFor db t.id).getLast? with
       | some tx => tx.action == Action.check_out && tx.user_name == u
       | none => false) = true := by
    simp [my_tools, List.mem_filter, ht]
  rw [hmem]
  cases hL : (eventsFor db t.id).getLast? with
  | none => simp [last_holder, hL]
  | some tx =>
    simp only [last_holder, hL]
    obtain ⟨tid', u', a⟩ := tx
    cases a <;> simp

/-- Witness for C3 (amended): in `twoHoldersDB`, applying the theorem at
Bob shows the listing and `last_holder` agree on the Sander. -/
theorem my_tools_iff_last_holder_witness :
    sanderRow ∈ twoHoldersDB.tools ∧
    (sanderRow ∈ my_tools twoHoldersDB "Bob" ↔
      last_holder twoHoldersDB sanderRow.id = some "Bob") :=
  ⟨by decide, my_tools_iff_last_holder twoHoldersDB "Bob" sanderRow (by decide)⟩

/-- Claim C4: every row reported by `list_tools_by_category` carries
`available_qty = max(quantity - current_out, 0)`, which is never negative,
whatever the event history or administrator quantity edits did to the
stored numbers. -/
theorem available_qty_clamped (db : DB) (cat : String) (p : ToolRow × Int)
    (hp : p ∈ list_tools_by_category db cat) :
    p.2 = max (p.1.quantity - p.1.current_out) 0 ∧ 0 ≤ p.2 := by
  simp only [list_tools_by_category, List.mem_map] at hp
  obtain ⟨t, ht, rfl⟩ := hp
  exact ⟨rfl, le_max_right _ _⟩

/-- Witness for C4: in `overdrawnDB` an administrator reduced the quantity
to 0 below the outstanding count 1, and the reported availability is
clamped to 0, not -1. -/
theorem available_qty_clamped_witness :
    (⟨1, "Drill", "Power Tools", 0, 1⟩, (0 : Int)) ∈
      list_tools_by_category overdrawnDB "Power Tools" ∧
    ((0 : Int) = max ((0 : Int) - 1) 0 ∧ (0 : Int) ≤ (0 : Int)) :=
  ⟨by decide,
   available_qty_clamped overdrawnDB "Power Tools"
     (⟨1, "Drill", "Power Tools", 0, 1⟩, 0) (by decide)⟩

/-- Claim C5 counterexample: the claim says replaying the ledger through
the spec's `holders()` yields exactly `current_out`.  After `driftOps`
(checkout by Alice, check-in recorded for non-holder Bob) the cached
`current_out` is 0, but the per-actor net-count replay leaves 1 unit
outstanding (Alice's): the cache and `holders()` disagree. -/
theorem current_out_reconcile_counterexample :
    findTool driftDB 1 = some ⟨1, "Sander", "Power Tools", 1, 0⟩ ∧
    outstandingSpec (eventsFor driftDB 1) = 1 := by
  decide

/-- Claim C5 (amended): the cached `current_out` is reconcilable with the
event log by a different replay than the spec's `holders()`: replaying the
tool's ledger with a single global counter — +1 per check-out, -1 clamped
at zero per check-in, in event order — yields exactly `current_out`, for
every tool in every database reachable by upsert/checkout/checkin
operations from a fresh database. -/
theorem current_out_eq_globalReplay (ops : List Op) (t : ToolRow)
    (ht : t ∈ (runOps init_db ops).tools) :
    t.current_out = globalReplay (eventsFor (runOps init_db ops) t.id) :=
  (inv_runOps ops init_db inv_init).1 t ht

/-- Witness for C5 (amended): after `driftOps` the Sander's cached counter
0 equals the global clamped replay of its ledger. -/
theorem current_out_eq_globalReplay_witness :
    (⟨1, "Sander", "Power Tools", 1, 0⟩ : ToolRow) ∈ (runOps init_db driftOps).tools ∧
    (⟨1, "Sander", "Power Tools", 1, 0⟩ : ToolRow).current_out =
      globalReplay (eventsFor (runOps init_db driftOps) 1) :=
  ⟨by decide,
   current_out_eq_globalReplay driftOps ⟨1, "Sander", "Power Tools", 1, 0⟩ (by decide)⟩

/-- Claim C6: `record_checkin`, whenever called, reports success and
appends a check-in event for the given tool and actor — it never inspects
holdership, so even a non-holder's check-in is recorded; gating is left
entirely to the caller. -/
theorem checkin_always_appends (db : DB) (tid : Nat) (u : String) :
    (record_checkin db tid u).1 = true ∧
    (record_checkin db tid u).2.transactions =
      db.transactions ++ [⟨tid, u, Action.check_in⟩] :=
  ⟨rfl, rfl⟩

/-- Claim C7 counterexample: the claim says `delete_history = true` lets a
tool with outstanding units be deleted together with its events.  In
`exhaustedDB` the tool has `available_qty 1 1 = 0 < 1 = quantity`, and
`delete_tool` with `delete_history = true` is still rejected: the guard
raises before `delete_history` is consulted. -/
theorem delete_with_history_counterexample :
    findTool exhaustedDB 1 = some ⟨1, "Drill", "Power Tools", 1, 1⟩ ∧
    available_qty 1 1 < 1 ∧
    delete_tool exhaustedDB 1 true =
      Except.error "Cannot delete while items are checked out." := by
  refine ⟨by decide, by decide, ?_⟩
  rfl

/-- Claim C7 (amended): deletion of a tool with `current_out > 0` is always
rejected with the in-use error, regardless of `delete_history`, and changes
nothing; when no units are outstanding, deletion succeeds, the tool is
gone, and with `delete_history = true` its events are removed with it. -/
theorem delete_tool_guard (db : DB) (tid : Nat) (dh : Bool) (t : ToolRow)
    (hf : findTool db tid = some t) :
    (0 < t.current_out →
      delete_tool db tid dh =
        Except.error "Cannot delete while items are checked out.") ∧
    (t.current_out ≤ 0 →
      ∃ db', delete_tool db tid dh = Except.ok db' ∧
        findTool db' tid = none ∧
        (dh = true → eventsFor db' tid = [])) := by
  constructor
  · intro hpos
    simp only [delete_tool, hf]
    rw [if_pos hpos]
  · intro hle
    simp only [delete_tool, hf]
    rw [if_neg (by omega : ¬ 0 < t.current_out)]
    refine ⟨_, rfl, ?_, ?_⟩
    · exact find?_filter_not _ _
    · intro hdh
      subst hdh
      simp only [if_pos rfl, eventsFor]
      exact filter_not_filter _ _

/-- Witness for C7 (amended): the in-use `exhaustedDB` rejects deletion
even with history deletion requested, and the checked-in `idleDB` deletes
successfully with its history. -/
theorem delete_tool_guard_witness :
    delete_tool exhaustedDB 1 true =
      Except.error "Cannot delete while items are checked out." ∧
    (∃ db', delete_tool idleDB 1 true = Except.ok db' ∧
      findTool db' 1 = none ∧ (true = true → eventsFor db' 1 = [])) :=
  ⟨(delete_tool_guard exhaustedDB 1 true ⟨1, "Drill", "Power Tools", 1, 1⟩
      (by decide)).1 (by decide),
   (delete_tool_guard idleDB 1 true ⟨1, "Drill", "Power Tools", 1, 0⟩
      (by decide)).2 (by decide)⟩

/-- Claim C8 counterexample: the claim says a tool name may be reused
across categories as a distinct record.  Upserting "Hammer" under
"Power Tools" and then under "Hand Tools" leaves a single row — the
`unique` constraint on `tools.name` is global, so the second upsert moved
the one Hammer to "Hand Tools" instead of creating a second tool. -/
theorem upsert_cross_category_counterexample :
    hammerTwice.tools = [⟨1, "Hammer", "Hand Tools", 2, 0⟩] := by
  decide

/-- Claim C8 (amended): tool names are globally unique, not per category.
When a tool of the (stripped) name exists — in any category — `upsert_tool`
updates it in place, overwriting its category and quantity and adding no
row; only when the name is absent everywhere does it insert a fresh row
with `current_out = 0`. -/
theorem upsert_by_global_name (db : DB) (n c : String) (q : Int) :
    ((db.tools.any fun t => t.name == pyStrip n) = true →
      (upsert_tool db n c q).tools.length = db.tools.length ∧
      ∀ t ∈ (upsert_tool db n c q).tools,
        t.name = pyStrip n → t.category = c ∧ t.quantity = q) ∧
    ((db.tools.any fun t => t.name == pyStrip n) = false →
      (upsert_tool db n c q).tools =
        db.tools ++ [⟨db.next_tool_id, pyStrip n, c, q, 0⟩]) := by
  constructor
  · intro hc
    simp only [upsert_tool]
    rw [if_pos hc]
    constructor
    · exact List.length_map _ _
    · intro t htm htn
      simp only [List.mem_map] at htm
      obtain ⟨r, hr, rfl⟩ := htm
      by_cases hn : (r.name == pyStrip n) = true
      · rw [if_pos hn] at htn ⊢
        exact ⟨rfl, rfl⟩
      · rw [if_neg hn] at htn
        exact absurd htn (by simpa using hn)
  · intro hc
    simp only [upsert_tool]
    rw [if_neg (by simp [hc])]

/-- Witness for C8 (amended): the second Hammer upsert (different category)
keeps the tool count at 1 and rewrites the row's category and quantity. -/
theorem upsert_by_global_name_witness :
    (upsert_tool (upsert_tool init_db "Hammer" "Power Tools" 1)
        "Hammer" "Hand Tools" 2).tools.length =
      (upsert_tool init_db "Hammer" "Power Tools" 1).tools.length ∧
    ∀ t ∈ (upsert_tool (upsert_tool init_db "Hammer" "Power Tools" 1)
        "Hammer" "Hand Tools" 2).tools,
      t.name = pyStrip "Hammer" → t.category = "Hand Tools" ∧ t.quantity = 2 :=
  (upsert_by_global_name (upsert_tool init_db "Hammer" "Power Tools" 1)
    "Hammer" "Hand Tools" 2).1 (by decide)

/-- Claim C9 counterexample: the claim says an actor with identity "Guest"
or "" cannot record a checkout.  The code has no such gate: with a unit
available, `record_checkout` succeeds for "Guest" (appending a Guest event)
and also for the empty identity. -/
theorem guest_checkout_counterexample :
    (record_checkout guestDB 1 "Guest").1 = true ∧
    (record_checkout guestDB 1 "Guest").2.transactions =
      [⟨1, "Guest", Action.check_out⟩] ∧
    (record_checkout guestDB 1 "").1 = true := by
  decide

/-- Claim C9 (amended): check-out is gated only by availability.  For any
actor identity whatsoever — named, "Guest", or empty — `record_checkout`
succeeds and appends a check-out event attributed to that identity whenever
`quantity - current_out > 0`. -/
theorem checkout_gated_only_by_availability (db : DB) (tid : Nat) (u : String)
    (t : ToolRow) (hf : findTool db tid = some t)
    (hav : 0 < t.quantity - t.current_out) :
    (record_checkout db tid u).1 = true ∧
    (record_checkout db tid u).2.transactions =
      db.transactions ++ [⟨tid, u, Action.check_out⟩] := by
  simp only [record_checkout, hf]
  rw [if_neg (by omega : ¬ t.quantity - t.current_out ≤ 0)]
  exact ⟨rfl, rfl⟩

/-- Witness for C9 (amended): "Guest" checks out the available Drill. -/
theorem checkout_gated_only_by_availability_witness :
    (record_checkout guestDB 1 "Guest").1 = true ∧
    (record_checkout guestDB 1 "Guest").2.transactions =
      guestDB.transactions ++ [⟨1, "Guest", Action.check_out⟩] :=
  checkout_gated_only_by_availability guestDB 1 "Guest"
    ⟨1, "Drill", "Power Tools", 1, 0⟩ (by decide) (by decide)

/-- Claim C10: the stored `current_out` of every tool is non-negative in
every database reachable by upsert/checkout/checkin operations from a fresh
database: new tools start at 0, `record_checkout` only increments (and only
after observing `quantity - current_out > 0`), and `record_checkin`
decrements clamped at zero. -/
theorem current_out_nonneg (ops : List Op) (t : ToolRow)
    (ht : t ∈ (runOps init_db ops).tools) :
    0 ≤ t.current_out := by
  have h := (inv_runOps ops init_db inv_init).1 t ht
  rw [h]
  exact globalReplay_nonneg _

/-- Witness for C10: after two clamped check-ins on an empty ledger and a
checkout, the Saw's counter is 1 and in particular non-negative. -/
theorem current_out_nonneg_witness :
    (⟨1, "Saw", "Hand Tools", 1, 1⟩ : ToolRow) ∈ (runOps init_db zigzagOps).tools ∧
    (0 : Int) ≤ (⟨1, "Saw", "Hand Tools", 1, 1⟩ : ToolRow).current_out :=
  ⟨by decide,
   current_out_nonneg zigzagOps ⟨1, "Saw", "Hand Tools", 1, 1⟩ (by decide)⟩

end HugeInventory
